import Mathlib

/-
Verification of the Satori personalizer (personalizer_satori.go).

The development shallowly embeds the data model and control flow of
GetValue, the scope cache, and the background eviction sweep started by
NewSatoriPersonalizer. JSON payloads are modelled as ordered lists of
field assignments; the ConfigObject is a schema together with a field
valuation. Strict decoding follows the semantics of the Go standard
library json decoder with DisallowUnknownFields: fields whose keys are
known to the schema are assigned in payload order even when the payload
also carries unknown keys, and the decode reports an error exactly when
some key is unknown. Remote calls are modelled as oracle functions, and
each GetValue outcome records the remote fetches it performed.
-/

namespace Hiro

/-- System type enumerants handled by the switch at the top of GetValue.
The extra constructor stands for any value that hits the default case. -/
inductive SystemType
  | achievements
  | base
  | economy
  | energy
  | inventory
  | leaderboards
  | teams
  | tutorials
  | unlockables
  | stats
  | eventLeaderboards
  | progression
  | incentives
  | unknownType
deriving DecidableEq

/-- The switch statement of GetValue: system type to Satori flag name;
none models the default branch that returns the unknown-system error. -/
def flagNameOf : SystemType → Option String
  | .achievements => some "Hiro-Achievements"
  | .base => some "Hiro-Base"
  | .economy => some "Hiro-Economy"
  | .energy => some "Hiro-Energy"
  | .inventory => some "Hiro-Inventory"
  | .leaderboards => some "Hiro-Leaderboards"
  | .teams => some "Hiro-Teams"
  | .tutorials => some "Hiro-Tutorials"
  | .unlockables => some "Hiro-Unlockables"
  | .stats => some "Hiro-Stats"
  | .eventLeaderboards => some "Hiro-Event-Leaderboards"
  | .progression => some "Hiro-Progression"
  | .incentives => some "Hiro-Incentives"
  | .unknownType => none

/-- The package-level allFlagNames list. -/
def allFlagNames : List String :=
  ["Hiro-Achievements", "Hiro-Base", "Hiro-Economy", "Hiro-Energy",
   "Hiro-Inventory", "Hiro-Leaderboards", "Hiro-Teams", "Hiro-Tutorials",
   "Hiro-Unlockables", "Hiro-Stats", "Hiro-Event-Leaderboards",
   "Hiro-Progression", "Hiro-Incentives"]

/-- The guard repeated at lines 304, 348 and 372 of the source: live
events are relevant for the event-leaderboards and achievements types. -/
def needsLiveEvents (t : SystemType) : Bool :=
  t == .eventLeaderboards || t == .achievements

/-- A JSON object payload: ordered field assignments of a flag or
live-event value string. -/
abbrev Payload := List (String × Int)

/-- The ConfigObject: the set of field names its Go struct declares and
the current value of each field. -/
structure Config where
  schema : List String
  fields : String → Option Int

def getField (c : Config) (k : String) : Option Int :=
  c.fields k

def setField (c : Config) (k : String) (v : Int) : Config :=
  { c with fields := fun k2 => if k2 = k then some v else c.fields k2 }

/-- Semantics of decoder.Decode with DisallowUnknownFields on a struct
target: keys declared by the schema are assigned in payload order, an
unknown key records a decode error but decoding of the remaining keys
continues, and the saved error is reported at the end. The returned flag
is true exactly when no unknown key occurred; the returned config keeps
every assignment made, also on error, matching in-place mutation. -/
def decodeStrict : Config → Payload → Config × Bool
  | c, [] => (c, true)
  | c, (k, v) :: rest =>
    if k ∈ c.schema then
      decodeStrict (setField c k v) rest
    else
      ((decodeStrict c rest).1, false)

/-- True when every key of the payload is declared by the schema, which
is exactly when decodeStrict succeeds. -/
def payloadFits (schema : List String) (p : Payload) : Bool :=
  p.all (fun kv => decide (kv.1 ∈ schema))

/-- A Satori flag record: name and JSON value. -/
structure Flag where
  name : String
  value : Payload
deriving DecidableEq

/-- runtime.FlagList. -/
structure FlagList where
  flags : List Flag
deriving DecidableEq

/-- A Satori live-event record, reduced to its JSON value. -/
structure LiveEvent where
  value : Payload
deriving DecidableEq

/-- runtime.LiveEventList. -/
structure LiveEventList where
  liveEvents : List LiveEvent
deriving DecidableEq

/-- A remote-call error. The source classifies an error as the soft
not-found condition by checking its message for a 404 status marker; the
flag is404 models that test, and the code field keeps error identity so
that returning an error unmodified is expressible. -/
structure RemoteError where
  is404 : Bool
  code : Nat
deriving DecidableEq

/-- The Satori client surface used by GetValue: FlagsList takes the user
id and the requested flag names, LiveEventsList takes the user id. -/
structure Satori where
  flagsList : String → List String → Except RemoteError FlagList
  liveEventsList : String → Except RemoteError LiveEventList

/-- Errors GetValue can return: the unknown-system runtime error, a
remote error passed through unmodified, and a JSON schema-mismatch
decode error on a flag payload. -/
inductive GoError
  | unknownSystem
  | remote (e : RemoteError)
  | schemaMismatch
deriving DecidableEq

/-- Modelled from the spec: a System exposes its type enumerant via
GetType and constructs its default ConfigObject via GetConfig; the
System interface and its implementations are outside the given source
file. Each GetConfig call yields the default configuration below. -/
structure System where
  type : SystemType
  getConfig : Config

/-- The per-scope cache record SatoriPersonalizerCache: an immutable
flag list and a write-once live-event slot (the atomic pointer, unset
while nil). -/
structure SatoriPersonalizerCache where
  flags : FlagList
  liveEvents : Option LiveEventList
deriving DecidableEq

/-- The cache map, keyed by the request context, modelled as a context
identifier. -/
abbrev CacheMap := List (Nat × SatoriPersonalizerCache)

def lookupCache : CacheMap → Nat → Option SatoriPersonalizerCache
  | [], _ => none
  | (k, e) :: rest, ctx => if k = ctx then some e else lookupCache rest ctx

def insertCache : CacheMap → Nat → SatoriPersonalizerCache → CacheMap
  | [], ctx, e => [(ctx, e)]
  | (k, e0) :: rest, ctx, e =>
    if k = ctx then (k, e) :: rest else (k, e0) :: insertCache rest ctx e

/-- The personalizer configuration bits GetValue consults. -/
structure SatoriPersonalizer where
  noCache : Bool

/-- Result of one GetValue call: the returned pair of config and error,
the cache state after the call, the name lists of the FlagsList calls
performed, in order, and the number of LiveEventsList calls. -/
structure Outcome where
  config : Option Config
  err : Option GoError
  state : CacheMap
  flagFetches : List (List String)
  liveEventFetches : Nat

/-- The flag-merge loop of the cached path, lines 387 to 400: every flag
whose name matches is decoded into a freshly constructed config; a
decode error aborts with the schema error; success marks found. -/
def applyFlagsLoop (gc : Config) (fn : String) :
    List Flag → Option Config → Bool → Except GoError (Option Config × Bool)
  | [], cfg, fnd => .ok (cfg, fnd)
  | f :: rest, cfg, fnd =>
    if f.name = fn then
      let r := decodeStrict gc f.value
      if r.2 then applyFlagsLoop gc fn rest (some r.1) true
      else .error GoError.schemaMismatch
    else applyFlagsLoop gc fn rest cfg fnd

/-- The live-event loop, lines 319 to 327 and 406 to 414: each record is
decoded into the same config object; a failing record is skipped, but
the assignments its decode already made to the shared object remain. -/
def applyLiveEvents : Config → Bool → List LiveEvent → Config × Bool
  | c, fnd, [] => (c, fnd)
  | c, fnd, e :: rest =>
    let r := decodeStrict c e.value
    applyLiveEvents r.1 (fnd || r.2) rest

/-- The final found check, lines 418 to 423: nil and nil when nothing
was found, otherwise the merged config. -/
def finishMerge (cfg : Option Config) (fnd : Bool) (st : CacheMap)
    (ff : List (List String)) (lf : Nat) : Outcome :=
  if fnd then ⟨cfg, none, st, ff, lf⟩ else ⟨none, none, st, ff, lf⟩

/-- Lines 293 to 302: when the caching-disabled fetch returned at least
one flag, decode the first one, with no check of its name, into a fresh
config; a decode error is the schema error. -/
def flagStep (sys : System) (fl : FlagList) : Except GoError (Option Config × Bool) :=
  match fl.flags with
  | [] => .ok (none, false)
  | f :: _ =>
    let r := decodeStrict sys.getConfig f.value
    if r.2 then .ok (some r.1, true) else .error GoError.schemaMismatch

/-- Lines 315 to 328 and 402 to 423: when the live-event list is
nonempty, construct the config if it is still nil and decode each record
into it, then apply the final found check. -/
def liveMergeStep (sys : System) (cfg : Option Config) (fnd : Bool)
    (lel : LiveEventList) (st : CacheMap) (ff : List (List String)) (lf : Nat) : Outcome :=
  if lel.liveEvents.length > 0 then
    let c := cfg.getD sys.getConfig
    let r := applyLiveEvents c fnd lel.liveEvents
    finishMerge (some r.1) r.2 st ff lf
  else finishMerge cfg fnd st ff lf

/-- Merge stage of the cached path, lines 385 to 423: run the flag loop,
then decode the cached live events, if any, into the lazily constructed
config. -/
def mergePhase (sys : System) (fn : String) (entry : SatoriPersonalizerCache)
    (st : CacheMap) (ff : List (List String)) (lf : Nat) : Outcome :=
  match applyFlagsLoop sys.getConfig fn entry.flags.flags none false with
  | .error e => ⟨none, some e, st, ff, lf⟩
  | .ok (cfg, fnd) =>
    match entry.liveEvents with
    | some lel => liveMergeStep sys cfg fnd lel st ff lf
    | none => finishMerge cfg fnd st ff lf

/-- The caching-disabled path, lines 282 to 329: fetch the single
resolved flag name, decode the first returned flag without a name check,
then fetch and decode live events when the system type needs them.
Nothing is stored in the cache. -/
def noCachePath (nk : Satori) (sys : System) (userID : String) (fn : String)
    (st : CacheMap) : Outcome :=
  match nk.flagsList userID [fn] with
  | .error e =>
    if e.is404 then ⟨none, none, st, [[fn]], 0⟩
    else ⟨none, some (.remote e), st, [[fn]], 0⟩
  | .ok flagList =>
    match flagStep sys flagList with
    | .error e => ⟨none, some e, st, [[fn]], 0⟩
    | .ok (cfg, fnd) =>
      if needsLiveEvents sys.type then
        match nk.liveEventsList userID with
        | .error e =>
          if e.is404 then ⟨none, none, st, [[fn]], 1⟩
          else ⟨none, some (.remote e), st, [[fn]], 1⟩
        | .ok lel => liveMergeStep sys cfg fnd lel st [[fn]] 1
      else finishMerge cfg fnd st [[fn]] 0

/-- The cached path, lines 330 to 423: look the context up in the cache;
on a miss fetch all flag names in one batched call, fetch live events
eagerly when needed, and store the new entry; on a hit with the
live-event slot unset and live events needed, fetch and store them into
the slot; then run the merge stage over the entry. An error during any
remote fetch returns before the entry (or the slot) is stored. -/
def cachedPath (nk : Satori) (ctx : Nat) (sys : System) (userID : String)
    (fn : String) (st : CacheMap) : Outcome :=
  match lookupCache st ctx with
  | some entry =>
    if needsLiveEvents sys.type && entry.liveEvents.isNone then
      match nk.liveEventsList userID with
      | .error e =>
        if e.is404 then ⟨none, none, st, [], 1⟩
        else ⟨none, some (.remote e), st, [], 1⟩
      | .ok lel =>
        let entry2 : SatoriPersonalizerCache := ⟨entry.flags, some lel⟩
        mergePhase sys fn entry2 (insertCache st ctx entry2) [] 1
    else mergePhase sys fn entry st [] 0
  | none =>
    match nk.flagsList userID allFlagNames with
    | .error e =>
      if e.is404 then ⟨none, none, st, [allFlagNames], 0⟩
      else ⟨none, some (.remote e), st, [allFlagNames], 0⟩
    | .ok flagList =>
      if needsLiveEvents sys.type then
        match nk.liveEventsList userID with
        | .error e =>
          if e.is404 then ⟨none, none, st, [allFlagNames], 1⟩
          else ⟨none, some (.remote e), st, [allFlagNames], 1⟩
        | .ok lel =>
          let entry : SatoriPersonalizerCache := ⟨flagList, some lel⟩
          mergePhase sys fn entry (insertCache st ctx entry) [allFlagNames] 1
      else
        let entry : SatoriPersonalizerCache := ⟨flagList, none⟩
        mergePhase sys fn entry (insertCache st ctx entry) [allFlagNames] 0

/-- GetValue, lines 246 to 424: resolve the flag name, then take the
caching-disabled or the cached path. -/
def GetValue (p : SatoriPersonalizer) (nk : Satori) (ctx : Nat) (sys : System)
    (userID : String) (st : CacheMap) : Outcome :=
  match flagNameOf sys.type with
  | none => ⟨none, some .unknownSystem, st, [], 0⟩
  | some fn =>
    if p.noCache then noCachePath nk sys userID fn st
    else cachedPath nk ctx sys userID fn st

/-- One tick of the background sweep, lines 229 to 235: under the write
lock, every entry whose context has ended is deleted. The predicate is
true for a context whose Err() is still nil, that is, a live scope. -/
def sweepTick (active : Nat → Bool) (st : CacheMap) : CacheMap :=
  st.filter (fun e => active e.1)

/-- The ticker period of the sweep goroutine, line 222, in seconds. -/
def sweepInterval : Nat := 30

/-- The sweep goroutine of NewSatoriPersonalizer, lines 220 to 239, on a
discrete timeline: tick n fires at time sweepInterval times n; a tick is
skipped once the construction-time shutdown signal has fired, otherwise
it applies sweepTick with the scope-liveness observed at that tick. -/
def sweeperCache (shutdown : Nat → Bool) (active : Nat → Nat → Bool)
    (init : CacheMap) : Nat → CacheMap
  | 0 => init
  | n + 1 =>
    if shutdown (n + 1) then sweeperCache shutdown active init n
    else sweepTick (active (n + 1)) (sweeperCache shutdown active init n)

/-- Right-biased override of an optional field value: the write wins
when present, otherwise the base value stands. -/
def mergeAt (base w : Option Int) : Option Int :=
  match w with
  | some v => some v
  | none => base

/-- The last value a payload assigns to a key, if any. -/
def lastAssign (k : String) : Payload → Option Int
  | [] => none
  | (k2, v) :: rest => mergeAt (if k2 = k then some v else none) (lastAssign k rest)

/-- The last value the live-event sequence assigns to a key, later
records overriding earlier ones. -/
def lastEventValue (k : String) : List LiveEvent → Option Int
  | [] => none
  | e :: rest => mergeAt (lastAssign k e.value) (lastEventValue k rest)

theorem mergeAt_none_right (b : Option Int) : mergeAt b none = b := rfl

theorem mergeAt_none_left (w : Option Int) : mergeAt none w = w := by
  cases w <;> rfl

theorem mergeAt_assoc (a b w : Option Int) :
    mergeAt (mergeAt a b) w = mergeAt a (mergeAt b w) := by
  cases w <;> rfl

theorem setField_schema (c : Config) (k : String) (v : Int) :
    (setField c k v).schema = c.schema := rfl

theorem decodeStrict_schema :
    ∀ (p : Payload) (c : Config), (decodeStrict c p).1.schema = c.schema
  | [], _ => rfl
  | (k, v) :: rest, c => by
    unfold decodeStrict
    by_cases h : k ∈ c.schema
    · simp only [if_pos h]
      exact decodeStrict_schema rest (setField c k v)
    · simp only [if_neg h]
      exact decodeStrict_schema rest c

theorem decodeStrict_ok :
    ∀ (p : Payload) (c : Config), (decodeStrict c p).2 = payloadFits c.schema p
  | [], _ => rfl
  | (k, v) :: rest, c => by
    unfold decodeStrict payloadFits
    by_cases h : k ∈ c.schema
    · simp only [if_pos h, List.all_cons, decide_eq_true h, Bool.true_and]
      exact decodeStrict_ok rest (setField c k v)
    · simp [if_neg h, h]

theorem getField_decodeStrict :
    ∀ (p : Payload) (c : Config) (k : String), k ∈ c.schema →
      getField (decodeStrict c p).1 k = mergeAt (getField c k) (lastAssign k p)
  | [], _, _, _ => rfl
  | (k2, v) :: rest, c, k, hk => by
    unfold decodeStrict lastAssign
    by_cases h : k2 ∈ c.schema
    · simp only [if_pos h]
      rw [getField_decodeStrict rest (setField c k2 v) k hk]
      cases hw : lastAssign k rest with
      | some x => simp [mergeAt]
      | none =>
        by_cases hkk : k2 = k
        · subst hkk
          simp [mergeAt, getField, setField]
        · have : ¬k = k2 := fun hh => hkk hh.symm
          simp [mergeAt, getField, setField, hkk, this]
    · simp only [if_neg h]
      have hkk : ¬k2 = k := fun hh => h (hh ▸ hk)
      rw [getField_decodeStrict rest c k hk]
      simp [hkk, mergeAt_none_left]

theorem applyLiveEvents_schema :
    ∀ (es : List LiveEvent) (c : Config) (f : Bool),
      (applyLiveEvents c f es).1.schema = c.schema
  | [], _, _ => rfl
  | e :: rest, c, f => by
    unfold applyLiveEvents
    rw [applyLiveEvents_schema rest (decodeStrict c e.value).1 (f || (decodeStrict c e.value).2)]
    exact decodeStrict_schema e.value c

theorem applyLiveEvents_found :
    ∀ (es : List LiveEvent) (c : Config) (f : Bool),
      (applyLiveEvents c f es).2
        = (f || es.any fun e => payloadFits c.schema e.value)
  | [], _, _ => by simp [applyLiveEvents]
  | e :: rest, c, f => by
    unfold applyLiveEvents
    rw [applyLiveEvents_found rest (decodeStrict c e.value).1 (f || (decodeStrict c e.value).2)]
    rw [decodeStrict_ok e.value c]
    simp only [List.any_cons, decodeStrict_schema e.value c, Bool.or_assoc]

theorem getField_applyLiveEvents :
    ∀ (es : List LiveEvent) (c : Config) (f : Bool) (k : String), k ∈ c.schema →
      getField (applyLiveEvents c f es).1 k = mergeAt (getField c k) (lastEventValue k es)
  | [], _, _, _, _ => rfl
  | e :: rest, c, f, k, hk => by
    unfold applyLiveEvents lastEventValue
    have hk2 : k ∈ (decodeStrict c e.value).1.schema := by
      rw [decodeStrict_schema e.value c]; exact hk
    rw [getField_applyLiveEvents rest (decodeStrict c e.value).1
          (f || (decodeStrict c e.value).2) k hk2]
    rw [getField_decodeStrict e.value c k hk]
    exact mergeAt_assoc _ _ _

theorem applyFlagsLoop_notMatching :
    ∀ (fl : List Flag) (gc : Config) (fn : String) (cfg : Option Config) (fnd : Bool),
      (∀ f ∈ fl, f.name ≠ fn) → applyFlagsLoop gc fn fl cfg fnd = .ok (cfg, fnd)
  | [], _, _, _, _, _ => rfl
  | f :: rest, gc, fn, cfg, fnd, h => by
    unfold applyFlagsLoop
    have hf : ¬f.name = fn := h f (List.mem_cons_self f rest)
    simp only [if_neg hf]
    exact applyFlagsLoop_notMatching rest gc fn cfg fnd
      (fun g hg => h g (List.mem_cons_of_mem f hg))

theorem lookupCache_insert_self :
    ∀ (m : CacheMap) (ctx : Nat) (e : SatoriPersonalizerCache),
      lookupCache (insertCache m ctx e) ctx = some e
  | [], ctx, e => by simp [insertCache, lookupCache]
  | (k, e0) :: rest, ctx, e => by
    unfold insertCache
    by_cases hk : k = ctx
    · simp [hk, lookupCache]
    · simp only [if_neg hk, lookupCache, hk, ite_false]
      exact lookupCache_insert_self rest ctx e

theorem lookupCache_insert_other :
    ∀ (m : CacheMap) (ctx ctx2 : Nat) (e : SatoriPersonalizerCache), ctx2 ≠ ctx →
      lookupCache (insertCache m ctx e) ctx2 = lookupCache m ctx2
  | [], ctx, ctx2, e, h => by
    simp [insertCache, lookupCache, Ne.symm h]
  | (k, e0) :: rest, ctx, ctx2, e, h => by
    unfold insertCache
    by_cases hk : k = ctx
    · subst hk
      have hne : ¬k = ctx2 := fun hh => h hh.symm
      simp [lookupCache, hne]
    · simp only [if_neg hk, lookupCache]
      by_cases hk2 : k = ctx2
      · simp [hk2]
      · simp only [if_neg hk2]
        exact lookupCache_insert_other rest ctx ctx2 e h

theorem lookupCache_sweepTick :
    ∀ (st : CacheMap) (active : Nat → Bool) (c : Nat),
      lookupCache (sweepTick active st) c
        = if active c then lookupCache st c else none
  | [], active, c => by
    simp [sweepTick, lookupCache]
  | (k, e) :: rest, active, c => by
    have ih := lookupCache_sweepTick rest active c
    simp only [sweepTick] at ih ⊢
    by_cases hk : k = c
    · subst hk
      cases ha : active k
      · simp [List.filter_cons, ha, ih, lookupCache]
      · simp [List.filter_cons, ha, lookupCache]
    · cases ha : active k
      · simp [List.filter_cons, ha, ih, lookupCache, hk]
      · simp [List.filter_cons, ha, ih, lookupCache, hk]

@[simp] theorem finishMerge_err (cfg : Option Config) (fnd : Bool) (st : CacheMap)
    (ff : List (List String)) (lf : Nat) : (finishMerge cfg fnd st ff lf).err = none := by
  unfold finishMerge; split <;> rfl

@[simp] theorem finishMerge_state (cfg : Option Config) (fnd : Bool) (st : CacheMap)
    (ff : List (List String)) (lf : Nat) : (finishMerge cfg fnd st ff lf).state = st := by
  unfold finishMerge; split <;> rfl

@[simp] theorem finishMerge_flagFetches (cfg : Option Config) (fnd : Bool) (st : CacheMap)
    (ff : List (List String)) (lf : Nat) : (finishMerge cfg fnd st ff lf).flagFetches = ff := by
  unfold finishMerge; split <;> rfl

@[simp] theorem finishMerge_liveEventFetches (cfg : Option Config) (fnd : Bool) (st : CacheMap)
    (ff : List (List String)) (lf : Nat) : (finishMerge cfg fnd st ff lf).liveEventFetches = lf := by
  unfold finishMerge; split <;> rfl

@[simp] theorem liveMergeStep_err (sys : System) (cfg : Option Config) (fnd : Bool)
    (lel : LiveEventList) (st : CacheMap) (ff : List (List String)) (lf : Nat) :
    (liveMergeStep sys cfg fnd lel st ff lf).err = none := by
  unfold liveMergeStep; split <;> simp

@[simp] theorem liveMergeStep_state (sys : System) (cfg : Option Config) (fnd : Bool)
    (lel : LiveEventList) (st : CacheMap) (ff : List (List String)) (lf : Nat) :
    (liveMergeStep sys cfg fnd lel st ff lf).state = st := by
  unfold liveMergeStep; split <;> simp

@[simp] theorem liveMergeStep_flagFetches (sys : System) (cfg : Option Config) (fnd : Bool)
    (lel : LiveEventList) (st : CacheMap) (ff : List (List String)) (lf : Nat) :
    (liveMergeStep sys cfg fnd lel st ff lf).flagFetches = ff := by
  unfold liveMergeStep; split <;> simp

@[simp] theorem liveMergeStep_liveEventFetches (sys : System) (cfg : Option Config) (fnd : Bool)
    (lel : LiveEventList) (st : CacheMap) (ff : List (List String)) (lf : Nat) :
    (liveMergeStep sys cfg fnd lel st ff lf).liveEventFetches = lf := by
  unfold liveMergeStep; split <;> simp

theorem mergePhase_state (sys : System) (fn : String) (entry : SatoriPersonalizerCache)
    (st : CacheMap) (ff : List (List String)) (lf : Nat) :
    (mergePhase sys fn entry st ff lf).state = st := by
  unfold mergePhase
  repeat' split
  all_goals simp

theorem mergePhase_flagFetches (sys : System) (fn : String) (entry : SatoriPersonalizerCache)
    (st : CacheMap) (ff : List (List String)) (lf : Nat) :
    (mergePhase sys fn entry st ff lf).flagFetches = ff := by
  unfold mergePhase
  repeat' split
  all_goals simp

theorem mergePhase_liveEventFetches (sys : System) (fn : String)
    (entry : SatoriPersonalizerCache) (st : CacheMap) (ff : List (List String)) (lf : Nat) :
    (mergePhase sys fn entry st ff lf).liveEventFetches = lf := by
  unfold mergePhase
  repeat' split
  all_goals simp

theorem mergePhase_no_partial (sys : System) (fn : String) (entry : SatoriPersonalizerCache)
    (st : CacheMap) (ff : List (List String)) (lf : Nat) :
    (mergePhase sys fn entry st ff lf).err.isSome = true →
    (mergePhase sys fn entry st ff lf).config = none := by
  unfold mergePhase
  repeat' split
  all_goals intro h
  all_goals first | rfl | simp at h

theorem noCachePath_state (nk : Satori) (sys : System) (userID : String) (fn : String)
    (st : CacheMap) : (noCachePath nk sys userID fn st).state = st := by
  unfold noCachePath
  repeat' split
  all_goals simp

theorem noCachePath_flagFetches (nk : Satori) (sys : System) (userID : String) (fn : String)
    (st : CacheMap) : (noCachePath nk sys userID fn st).flagFetches = [[fn]] := by
  unfold noCachePath
  repeat' split
  all_goals simp

theorem noCachePath_no_partial (nk : Satori) (sys : System) (userID : String) (fn : String)
    (st : CacheMap) : (noCachePath nk sys userID fn st).err.isSome = true →
    (noCachePath nk sys userID fn st).config = none := by
  unfold noCachePath
  repeat' split
  all_goals intro h
  all_goals first | rfl | simp at h

theorem cachedPath_no_partial (nk : Satori) (ctx : Nat) (sys : System) (userID : String)
    (fn : String) (st : CacheMap) :
    (cachedPath nk ctx sys userID fn st).err.isSome = true →
    (cachedPath nk ctx sys userID fn st).config = none := by
  unfold cachedPath
  repeat' split
  all_goals intro h
  all_goals first
    | rfl
    | exact mergePhase_no_partial _ _ _ _ _ _ h

/-- A personalizer with caching on and one with caching off. -/
def pCache : SatoriPersonalizer := ⟨false⟩

def pNoCache : SatoriPersonalizer := ⟨true⟩

@[simp] theorem pCache_noCache : pCache.noCache = false := rfl

@[simp] theorem pNoCache_noCache : pNoCache.noCache = true := rfl

/-- GetValue with caching off reduces to the caching-disabled path. -/
theorem GetValue_noCache (nk : Satori) (ctx : Nat) (sys : System) (userID : String)
    (st : CacheMap) (fn : String) (hfn : flagNameOf sys.type = some fn) :
    GetValue pNoCache nk ctx sys userID st = noCachePath nk sys userID fn st := by
  unfold GetValue
  rw [hfn]
  rfl

/-- GetValue with caching on reduces to the cached path. -/
theorem GetValue_cached (nk : Satori) (ctx : Nat) (sys : System) (userID : String)
    (st : CacheMap) (fn : String) (hfn : flagNameOf sys.type = some fn) :
    GetValue pCache nk ctx sys userID st = cachedPath nk ctx sys userID fn st := by
  unfold GetValue
  rw [hfn]
  rfl

/-- A remote source returning empty lists, for concrete instantiations. -/
def nkEmpty : Satori := ⟨fun _ _ => .ok ⟨[]⟩, fun _ => .ok ⟨[]⟩⟩

/-- A small default config with two known fields, both initially unset. -/
def cfgTwo : Config := ⟨["rewardMultiplier", "maxCount"], fun _ => none⟩

/-- C3. On every hard-error path of GetValue (unknown system, remote
transport error, flag schema mismatch), the returned config is nil: an
error outcome never carries a partially merged ConfigObject, so no
partial merge is observable to the caller. -/
theorem C3_no_partial_config_on_error (p : SatoriPersonalizer) (nk : Satori) (ctx : Nat)
    (sys : System) (userID : String) (st : CacheMap) :
    (GetValue p nk ctx sys userID st).err.isSome = true →
    (GetValue p nk ctx sys userID st).config = none := by
  unfold GetValue
  cases flagNameOf sys.type with
  | none => intro h; rfl
  | some fn =>
    cases hp : p.noCache
    · simp only [hp, Bool.false_eq_true, if_false]
      exact cachedPath_no_partial nk ctx sys userID fn st
    · simp only [hp, if_true]
      exact noCachePath_no_partial nk sys userID fn st

/-- Witness for C3 at the unknown-system input. -/
theorem C3_no_partial_config_on_error_witness :
    (GetValue pNoCache nkEmpty 0 ⟨.unknownType, cfgTwo⟩ "u" []).err.isSome = true
      ∧ (GetValue pNoCache nkEmpty 0 ⟨.unknownType, cfgTwo⟩ "u" []).config = none :=
  ⟨rfl, C3_no_partial_config_on_error pNoCache nkEmpty 0 ⟨.unknownType, cfgTwo⟩ "u" [] rfl⟩

/-- C8. Pre-shutdown behaviour of the background sweep, on the discrete
timeline where tick n fires at time sweepInterval times n: while the
shutdown signal has not fired, each tick removes exactly the entries
whose scope is inactive at that tick; hence a scope that is inactive by
time t is evicted at the first tick at or after t, whose time exceeds t
by at most one sweep interval of 30 time units. -/
theorem C8_sweep_evicts_within_interval
    (shutdown : Nat → Bool) (active : Nat → Nat → Bool) (init : CacheMap)
    (t c : Nat)
    (hsd : shutdown (t / sweepInterval + 1) = false)
    (hact : active (t / sweepInterval + 1) c = false) :
    (∀ n c2, shutdown (n + 1) = false →
       lookupCache (sweeperCache shutdown active init (n + 1)) c2
         = if active (n + 1) c2 then
             lookupCache (sweeperCache shutdown active init n) c2
           else none)
    ∧ lookupCache (sweeperCache shutdown active init (t / sweepInterval + 1)) c = none
    ∧ t ≤ sweepInterval * (t / sweepInterval + 1)
    ∧ sweepInterval * (t / sweepInterval + 1) ≤ t + sweepInterval := by
  have tick : ∀ n c2, shutdown (n + 1) = false →
      lookupCache (sweeperCache shutdown active init (n + 1)) c2
        = if active (n + 1) c2 then
            lookupCache (sweeperCache shutdown active init n) c2
          else none := by
    intro n c2 hn
    simp only [sweeperCache, hn, Bool.false_eq_true, if_false]
    exact lookupCache_sweepTick _ _ _
  refine ⟨tick, ?_, ?_, ?_⟩
  · rw [tick _ c hsd, hact]
    simp
  · simp only [sweepInterval]
    omega
  · simp only [sweepInterval]
    omega

/-- Witness for C8: a single stale entry is gone by the tick following
time 10, with no shutdown and its scope inactive. -/
theorem C8_sweep_evicts_within_interval_witness :
    lookupCache (sweeperCache (fun _ => false) (fun _ _ => false)
      [(5, ⟨⟨[]⟩, none⟩)] (10 / sweepInterval + 1)) 5 = none :=
  (C8_sweep_evicts_within_interval (fun _ => false) (fun _ _ => false)
    [(5, ⟨⟨[]⟩, none⟩)] 10 5 rfl rfl).2.1

/-- C4. Remote lookups that fail are handled uniformly on every path of
GetValue: a not-found error (the 404 class) yields the soft nil-nil
outcome, and any other remote error is returned unmodified as the error
of the call, with a nil config. The five conjuncts cover the flag fetch
and the live-event fetch of the caching-disabled path, and the miss-time
flag fetch, miss-time live-event fetch and hit-time live-event fetch of
the cached path. -/
theorem C4_not_found_soft_other_errors_propagated
    (nk : Satori) (ctx : Nat) (sys : System) (userID : String) (st : CacheMap)
    (fn : String) (hfn : flagNameOf sys.type = some fn) (e : RemoteError) :
    (nk.flagsList userID [fn] = .error e →
       (GetValue pNoCache nk ctx sys userID st).config = none
       ∧ (GetValue pNoCache nk ctx sys userID st).err
           = if e.is404 then none else some (.remote e))
    ∧ (∀ fl cfg fnd, nk.flagsList userID [fn] = .ok fl →
       flagStep sys fl = .ok (cfg, fnd) →
       needsLiveEvents sys.type = true →
       nk.liveEventsList userID = .error e →
       (GetValue pNoCache nk ctx sys userID st).config = none
       ∧ (GetValue pNoCache nk ctx sys userID st).err
           = if e.is404 then none else some (.remote e))
    ∧ (lookupCache st ctx = none → nk.flagsList userID allFlagNames = .error e →
       (GetValue pCache nk ctx sys userID st).config = none
       ∧ (GetValue pCache nk ctx sys userID st).err
           = if e.is404 then none else some (.remote e))
    ∧ (∀ fl, lookupCache st ctx = none → nk.flagsList userID allFlagNames = .ok fl →
       needsLiveEvents sys.type = true →
       nk.liveEventsList userID = .error e →
       (GetValue pCache nk ctx sys userID st).config = none
       ∧ (GetValue pCache nk ctx sys userID st).err
           = if e.is404 then none else some (.remote e))
    ∧ (∀ entry, lookupCache st ctx = some entry → entry.liveEvents = none →
       needsLiveEvents sys.type = true →
       nk.liveEventsList userID = .error e →
       (GetValue pCache nk ctx sys userID st).config = none
       ∧ (GetValue pCache nk ctx sys userID st).err
           = if e.is404 then none else some (.remote e)) := by
  refine ⟨?_, ?_, ?_, ?_, ?_⟩
  · intro h
    rw [GetValue_noCache nk ctx sys userID st fn hfn]
    unfold noCachePath
    rw [h]
    by_cases h4 : e.is404 <;> simp [h4]
  · intro fl cfg fnd hfl hstep hn hle
    rw [GetValue_noCache nk ctx sys userID st fn hfn]
    unfold noCachePath
    rw [hfl]
    simp only [hstep, hn, if_true, hle]
    by_cases h4 : e.is404 <;> simp [h4]
  · intro hl h
    rw [GetValue_cached nk ctx sys userID st fn hfn]
    unfold cachedPath
    rw [hl, h]
    by_cases h4 : e.is404 <;> simp [h4]
  · intro fl hl hfl hn hle
    rw [GetValue_cached nk ctx sys userID st fn hfn]
    unfold cachedPath
    rw [hl, hfl]
    simp only [hn, if_true, hle]
    by_cases h4 : e.is404 <;> simp [h4]
  · intro entry hl hnone hn hle
    rw [GetValue_cached nk ctx sys userID st fn hfn]
    unfold cachedPath
    rw [hl]
    simp only [hnone, hn, Option.isNone_none, Bool.and_true, if_true, hle]
    by_cases h4 : e.is404 <;> simp [h4]

/-- A remote source whose user is unknown: both lookups fail with the
not-found condition. -/
def nkNotFound : Satori :=
  ⟨fun _ _ => .error ⟨true, 0⟩, fun _ => .error ⟨true, 0⟩⟩

/-- Witness for C4: the not-found flag fetch yields nil config and nil
error under the caching-disabled path. -/
theorem C4_not_found_soft_other_errors_propagated_witness :
    (GetValue pNoCache nkNotFound 0 ⟨.base, cfgTwo⟩ "u" []).config = none
    ∧ (GetValue pNoCache nkNotFound 0 ⟨.base, cfgTwo⟩ "u" []).err
        = if (⟨true, 0⟩ : RemoteError).is404 then none
          else some (.remote ⟨true, 0⟩) :=
  (C4_not_found_soft_other_errors_propagated nkNotFound 0 ⟨.base, cfgTwo⟩ "u" []
    "Hiro-Base" rfl ⟨true, 0⟩).1 rfl

@[simp] theorem finishMerge_config_found (cfg : Option Config) (st : CacheMap)
    (ff : List (List String)) (lf : Nat) : (finishMerge cfg true st ff lf).config = cfg := rfl

@[simp] theorem finishMerge_config_not_found (cfg : Option Config) (st : CacheMap)
    (ff : List (List String)) (lf : Nat) : (finishMerge cfg false st ff lf).config = none := rfl

/-- C2. In the cached merge stage, a flag record matching the resolved
name whose payload carries a key unknown to the schema makes GetValue
return a nil config together with the schema-mismatch error; whereas a
live-event record that fails strict decoding produces no error, is not
counted as found, and the remaining live-event records are still
processed, so a later record that decodes makes the call return a
config. -/
theorem C2_flag_schema_hard_live_event_soft
    (sys : System) (fn : String) (hfn : flagNameOf sys.type = some fn)
    (nk : Satori) (userID : String) :
    (∀ ctx st entry f, lookupCache st ctx = some entry →
       (needsLiveEvents sys.type && entry.liveEvents.isNone) = false →
       entry.flags.flags = [f] → f.name = fn →
       payloadFits sys.getConfig.schema f.value = false →
       (GetValue pCache nk ctx sys userID st).config = none
       ∧ (GetValue pCache nk ctx sys userID st).err = some .schemaMismatch)
    ∧
    (∀ ctx st entry lel pre bad post, lookupCache st ctx = some entry →
       (needsLiveEvents sys.type && entry.liveEvents.isNone) = false →
       (∀ f ∈ entry.flags.flags, f.name ≠ fn) →
       entry.liveEvents = some lel →
       lel.liveEvents = pre ++ bad :: post →
       payloadFits sys.getConfig.schema bad.value = false →
       (∃ g ∈ post, payloadFits sys.getConfig.schema g.value = true) →
       (GetValue pCache nk ctx sys userID st).err = none
       ∧ (GetValue pCache nk ctx sys userID st).config.isSome = true) := by
  constructor
  · intro ctx st entry f hl hguard hflags hname hfits
    rw [GetValue_cached nk ctx sys userID st fn hfn]
    unfold cachedPath
    rw [hl]
    simp only [hguard, Bool.false_eq_true, if_false]
    unfold mergePhase
    rw [hflags]
    have hloop : applyFlagsLoop sys.getConfig fn [f] none false
        = .error GoError.schemaMismatch := by
      simp [applyFlagsLoop, hname, decodeStrict_ok, hfits]
    rw [hloop]
    exact ⟨rfl, rfl⟩
  · intro ctx st entry lel pre bad post hl hguard hflags hle hsplit hbadfits hgood
    rw [GetValue_cached nk ctx sys userID st fn hfn]
    unfold cachedPath
    rw [hl]
    simp only [hguard, Bool.false_eq_true, if_false]
    unfold mergePhase
    rw [applyFlagsLoop_notMatching entry.flags.flags sys.getConfig fn none false hflags]
    simp only [hle]
    unfold liveMergeStep
    have hlen : lel.liveEvents.length > 0 := by rw [hsplit]; simp
    rw [if_pos hlen]
    have hfound :
        (applyLiveEvents sys.getConfig false lel.liveEvents).2 = true := by
      rw [applyLiveEvents_found]
      obtain ⟨g, hg, hgfits⟩ := hgood
      simp only [Bool.false_or]
      rw [hsplit]
      refine List.any_eq_true.mpr ⟨g, ?_, ?_⟩
      · simp [hg]
      · simpa using hgfits
    constructor
    · simp
    · simp [hfound]

/-- Witness for C2: a bad flag payload aborts with the schema error; a
bad live-event record is skipped and a later good one still applies. -/
theorem C2_flag_schema_hard_live_event_soft_witness :
    ((GetValue pCache nkEmpty 4 ⟨.base, cfgTwo⟩ "u"
        [(4, ⟨⟨[⟨"Hiro-Base", [("bogus", 1)]⟩]⟩, none⟩)]).config = none
      ∧ (GetValue pCache nkEmpty 4 ⟨.base, cfgTwo⟩ "u"
        [(4, ⟨⟨[⟨"Hiro-Base", [("bogus", 1)]⟩]⟩, none⟩)]).err = some .schemaMismatch)
    ∧ ((GetValue pCache nkEmpty 5 ⟨.base, cfgTwo⟩ "u"
        [(5, ⟨⟨[]⟩, some ⟨[⟨[("zzz", 1)]⟩, ⟨[("rewardMultiplier", 5)]⟩]⟩⟩)]).err = none
      ∧ (GetValue pCache nkEmpty 5 ⟨.base, cfgTwo⟩ "u"
        [(5, ⟨⟨[]⟩, some ⟨[⟨[("zzz", 1)]⟩, ⟨[("rewardMultiplier", 5)]⟩]⟩⟩)]).config.isSome
          = true) :=
  ⟨(C2_flag_schema_hard_live_event_soft ⟨.base, cfgTwo⟩ "Hiro-Base" rfl nkEmpty "u").1
      4 [(4, ⟨⟨[⟨"Hiro-Base", [("bogus", 1)]⟩]⟩, none⟩)]
      ⟨⟨[⟨"Hiro-Base", [("bogus", 1)]⟩]⟩, none⟩ ⟨"Hiro-Base", [("bogus", 1)]⟩
      rfl rfl rfl rfl (by decide),
   (C2_flag_schema_hard_live_event_soft ⟨.base, cfgTwo⟩ "Hiro-Base" rfl nkEmpty "u").2
      5 [(5, ⟨⟨[]⟩, some ⟨[⟨[("zzz", 1)]⟩, ⟨[("rewardMultiplier", 5)]⟩]⟩⟩)]
      ⟨⟨[]⟩, some ⟨[⟨[("zzz", 1)]⟩, ⟨[("rewardMultiplier", 5)]⟩]⟩⟩
      ⟨[⟨[("zzz", 1)]⟩, ⟨[("rewardMultiplier", 5)]⟩]⟩
      [] ⟨[("zzz", 1)]⟩ [⟨[("rewardMultiplier", 5)]⟩]
      rfl rfl (by simp) rfl rfl (by decide)
      ⟨⟨[("rewardMultiplier", 5)]⟩, by simp, by decide⟩⟩

/-- A remote source whose flag list holds one record with a name that
matches no Hiro flag name, carrying an empty payload. -/
def nkWrongName : Satori :=
  ⟨fun _ _ => .ok ⟨[⟨"Other-Flag", []⟩]⟩, fun _ => .ok ⟨[]⟩⟩

/-- Counterexample to C6: a caching-disabled call for the Base system
completes with no error and fetches no live events, the single fetched
flag record does not match the resolved name Hiro-Base, yet the call
returns a config instead of the nil-nil outcome, because the
caching-disabled path decodes the first record without a name check. -/
theorem C6_counterexample :
    (GetValue pNoCache nkWrongName 0 ⟨.base, cfgTwo⟩ "u" []).err = none
    ∧ (∀ f ∈ [(⟨"Other-Flag", []⟩ : Flag)], f.name ≠ "Hiro-Base")
    ∧ (GetValue pNoCache nkWrongName 0 ⟨.base, cfgTwo⟩ "u" []).liveEventFetches = 0
    ∧ (GetValue pNoCache nkWrongName 0 ⟨.base, cfgTwo⟩ "u" []).config.isSome = true := by
  refine ⟨by decide, by decide, by decide, by decide⟩

/-- C6 as amended: the nil-nil outcome is guaranteed when nothing can be
found on the taken path: with caching disabled, when the fetched flag
list is empty (a nonempty list is decoded without any name check) and
every fetched live-event record, if live events are needed, fails strict
decoding; with caching enabled, when no cached record matches the
resolved name and every cached live-event record fails strict
decoding. -/
theorem C6_no_record_returns_nil_nil
    (nk : Satori) (sys : System) (fn : String) (userID : String)
    (hfn : flagNameOf sys.type = some fn) :
    (∀ ctx st fl, nk.flagsList userID [fn] = .ok fl → fl.flags = [] →
      (needsLiveEvents sys.type = true →
        ∃ lel, nk.liveEventsList userID = .ok lel
          ∧ ∀ e ∈ lel.liveEvents, payloadFits sys.getConfig.schema e.value = false) →
      (GetValue pNoCache nk ctx sys userID st).config = none
      ∧ (GetValue pNoCache nk ctx sys userID st).err = none)
    ∧
    (∀ ctx st entry, lookupCache st ctx = some entry →
      (needsLiveEvents sys.type && entry.liveEvents.isNone) = false →
      (∀ f ∈ entry.flags.flags, f.name ≠ fn) →
      (∀ lel, entry.liveEvents = some lel →
        ∀ e ∈ lel.liveEvents, payloadFits sys.getConfig.schema e.value = false) →
      (GetValue pCache nk ctx sys userID st).config = none
      ∧ (GetValue pCache nk ctx sys userID st).err = none) := by
  constructor
  · intro ctx st fl hfl hempty hlive
    rw [GetValue_noCache nk ctx sys userID st fn hfn]
    unfold noCachePath
    rw [hfl]
    have hstep : flagStep sys fl = .ok (none, false) := by
      unfold flagStep
      rw [hempty]
    simp only [hstep]
    cases hn : needsLiveEvents sys.type with
    | false => simp
    | true =>
      obtain ⟨lel, hlel, hfail⟩ := hlive hn
      simp only [if_true, hlel]
      unfold liveMergeStep
      cases hz : lel.liveEvents.length with
      | zero => simp [hz]
      | succ m =>
        have hnone : (applyLiveEvents sys.getConfig false lel.liveEvents).2 = false := by
          rw [applyLiveEvents_found]
          simp only [Bool.false_or]
          rw [List.any_eq_false]
          intro e he
          simp [hfail e he]
        simp [hz, hnone]
  · intro ctx st entry hl hguard hflags hlive
    rw [GetValue_cached nk ctx sys userID st fn hfn]
    unfold cachedPath
    rw [hl]
    simp only [hguard, Bool.false_eq_true, if_false]
    unfold mergePhase
    rw [applyFlagsLoop_notMatching entry.flags.flags sys.getConfig fn none false hflags]
    cases hle : entry.liveEvents with
    | none => simp
    | some lel =>
      unfold liveMergeStep
      cases hz : lel.liveEvents.length with
      | zero => simp [hz]
      | succ m =>
        have hnone : (applyLiveEvents sys.getConfig false lel.liveEvents).2 = false := by
          rw [applyLiveEvents_found]
          simp only [Bool.false_or]
          rw [List.any_eq_false]
          intro e he
          simp [hlive lel hle e he]
        simp [hz, hnone]

/-- Witness for C6 as amended: empty flag list for Base, caching off,
and a cached entry with only a non-matching record, caching on. -/
theorem C6_no_record_returns_nil_nil_witness :
    ((GetValue pNoCache nkEmpty 0 ⟨.base, cfgTwo⟩ "u" []).config = none
      ∧ (GetValue pNoCache nkEmpty 0 ⟨.base, cfgTwo⟩ "u" []).err = none)
    ∧ ((GetValue pCache nkEmpty 6 ⟨.base, cfgTwo⟩ "u"
          [(6, ⟨⟨[⟨"Other-Flag", []⟩]⟩, none⟩)]).config = none
      ∧ (GetValue pCache nkEmpty 6 ⟨.base, cfgTwo⟩ "u"
          [(6, ⟨⟨[⟨"Other-Flag", []⟩]⟩, none⟩)]).err = none) :=
  ⟨(C6_no_record_returns_nil_nil nkEmpty ⟨.base, cfgTwo⟩ "Hiro-Base" "u" rfl).1
      0 [] ⟨[]⟩ rfl rfl (by intro h; exact absurd h (by decide)),
   (C6_no_record_returns_nil_nil nkEmpty ⟨.base, cfgTwo⟩ "Hiro-Base" "u" rfl).2
      6 [(6, ⟨⟨[⟨"Other-Flag", []⟩]⟩, none⟩)] ⟨⟨[⟨"Other-Flag", []⟩]⟩, none⟩
      rfl rfl (by decide) (fun lel h => Option.noConfusion h)⟩

/-- C9. The caching-disabled path decodes the first record of the
remote response with no name comparison: a single returned flag whose
name differs from the resolved flag name is still merged and returned;
the cached path, by contrast, filters by name, so the same record in a
cache entry contributes nothing and the call returns nil-nil. -/
theorem C9_noCache_ignores_flag_name
    (sys : System) (fn : String) (hfn : flagNameOf sys.type = some fn)
    (hnl : needsLiveEvents sys.type = false)
    (nk : Satori) (userID : String) (g : Flag) (hg : g.name ≠ fn) :
    (∀ ctx st, nk.flagsList userID [fn] = .ok ⟨[g]⟩ →
       payloadFits sys.getConfig.schema g.value = true →
       (GetValue pNoCache nk ctx sys userID st).config
         = some (decodeStrict sys.getConfig g.value).1
       ∧ (GetValue pNoCache nk ctx sys userID st).err = none)
    ∧
    (∀ ctx st entry, lookupCache st ctx = some entry → entry.flags.flags = [g] →
       entry.liveEvents = none →
       (GetValue pCache nk ctx sys userID st).config = none
       ∧ (GetValue pCache nk ctx sys userID st).err = none) := by
  constructor
  · intro ctx st hfl hfit
    rw [GetValue_noCache nk ctx sys userID st fn hfn]
    unfold noCachePath
    rw [hfl]
    have hstep : flagStep sys ⟨[g]⟩ = .ok (some (decodeStrict sys.getConfig g.value).1, true) := by
      unfold flagStep
      simp [decodeStrict_ok, hfit]
    simp only [hstep, hnl, Bool.false_eq_true, if_false]
    exact ⟨rfl, rfl⟩
  · intro ctx st entry hl hflags hle
    rw [GetValue_cached nk ctx sys userID st fn hfn]
    unfold cachedPath
    rw [hl]
    simp only [hnl, Bool.false_and, Bool.false_eq_true, if_false]
    unfold mergePhase
    rw [hflags]
    rw [applyFlagsLoop_notMatching [g] sys.getConfig fn none false
      (by intro f hf; rw [List.mem_singleton] at hf; rw [hf]; exact hg)]
    simp only [hle]
    exact ⟨rfl, rfl⟩

/-- A remote source returning one flag named for the Economy system. -/
def nkEconomyFlag : Satori :=
  ⟨fun _ _ => .ok ⟨[⟨"Hiro-Economy", [("rewardMultiplier", 9)]⟩]⟩, fun _ => .ok ⟨[]⟩⟩

/-- Witness for C9: a Base request served a Hiro-Economy record merges
it when caching is off, and ignores it when it sits in the cache. -/
theorem C9_noCache_ignores_flag_name_witness :
    ((GetValue pNoCache nkEconomyFlag 0 ⟨.base, cfgTwo⟩ "u" []).config
        = some (decodeStrict cfgTwo [("rewardMultiplier", 9)]).1
      ∧ (GetValue pNoCache nkEconomyFlag 0 ⟨.base, cfgTwo⟩ "u" []).err = none)
    ∧ ((GetValue pCache nkEconomyFlag 8 ⟨.base, cfgTwo⟩ "u"
          [(8, ⟨⟨[⟨"Hiro-Economy", [("rewardMultiplier", 9)]⟩]⟩, none⟩)]).config = none
      ∧ (GetValue pCache nkEconomyFlag 8 ⟨.base, cfgTwo⟩ "u"
          [(8, ⟨⟨[⟨"Hiro-Economy", [("rewardMultiplier", 9)]⟩]⟩, none⟩)]).err = none) :=
  ⟨(C9_noCache_ignores_flag_name ⟨.base, cfgTwo⟩ "Hiro-Base" rfl rfl nkEconomyFlag "u"
      ⟨"Hiro-Economy", [("rewardMultiplier", 9)]⟩ (by decide)).1 0 [] rfl (by decide),
   (C9_noCache_ignores_flag_name ⟨.base, cfgTwo⟩ "Hiro-Base" rfl rfl nkEconomyFlag "u"
      ⟨"Hiro-Economy", [("rewardMultiplier", 9)]⟩ (by decide)).2 8
      [(8, ⟨⟨[⟨"Hiro-Economy", [("rewardMultiplier", 9)]⟩]⟩, none⟩)]
      ⟨⟨[⟨"Hiro-Economy", [("rewardMultiplier", 9)]⟩]⟩, none⟩ rfl rfl rfl⟩

/-- C10. A live-event record with one schema-known field and one unknown
field fails strict decoding and is skipped: alone it leaves the call at
the nil-nil outcome. But its decode already assigned the known field to
the shared config object, so when a matching flag makes the call return
a config, the value written by the skipped record appears in it. -/
theorem C10_skipped_event_partial_write_persists :
    ((GetValue pCache nkEmpty 7 ⟨.achievements, cfgTwo⟩ "u"
        [(7, ⟨⟨[]⟩, some ⟨[⟨[("rewardMultiplier", 7), ("zzz", 1)]⟩]⟩⟩)]).config.isNone
      = true)
    ∧ ((GetValue pCache nkEmpty 7 ⟨.achievements, cfgTwo⟩ "u"
        [(7, ⟨⟨[]⟩, some ⟨[⟨[("rewardMultiplier", 7), ("zzz", 1)]⟩]⟩⟩)]).err = none)
    ∧ payloadFits cfgTwo.schema [("rewardMultiplier", 7), ("zzz", 1)] = false
    ∧ ((GetValue pCache nkEmpty 7 ⟨.achievements, cfgTwo⟩ "u"
        [(7, ⟨⟨[⟨"Hiro-Achievements", [("maxCount", 1)]⟩]⟩,
              some ⟨[⟨[("rewardMultiplier", 7), ("zzz", 1)]⟩]⟩⟩)]).config.bind
        (fun c => getField c "rewardMultiplier")) = some 7
    ∧ ((GetValue pCache nkEmpty 7 ⟨.achievements, cfgTwo⟩ "u"
        [(7, ⟨⟨[⟨"Hiro-Achievements", [("maxCount", 1)]⟩]⟩,
              some ⟨[⟨[("rewardMultiplier", 7), ("zzz", 1)]⟩]⟩⟩)]).err = none) := by
  refine ⟨by decide, by decide, by decide, by decide, by decide⟩

/-- Counterexample to C1: two cached live events both touch
rewardMultiplier; the first, value 3, decodes successfully, the second,
value 7, fails strict decoding on an unknown field, so the last
successfully-decoded live-event record carries value 3 — yet the
returned config holds 7, because the failing decode already assigned
its schema-known field before being skipped. -/
theorem C1_counterexample :
    payloadFits cfgTwo.schema [("rewardMultiplier", 3)] = true
    ∧ payloadFits cfgTwo.schema [("rewardMultiplier", 7), ("zzz", 1)] = false
    ∧ ((GetValue pCache nkEmpty 1 ⟨.achievements, cfgTwo⟩ "u"
        [(1, ⟨⟨[⟨"Hiro-Achievements", [("rewardMultiplier", 2)]⟩]⟩,
              some ⟨[⟨[("rewardMultiplier", 3)]⟩,
                     ⟨[("rewardMultiplier", 7), ("zzz", 1)]⟩]⟩⟩)]).config.bind
        (fun c => getField c "rewardMultiplier")) = some 7 := by
  refine ⟨by decide, by decide, by decide⟩

/-- C1 as amended. In the cached merge stage with a single matching flag
that decodes successfully, the flag payload is applied to the default
config before any live-event payload and live-event payloads are applied
in fetch order onto the same object, so for any schema field the final
value is the last assignment in that order: the live events override the
flag, later records override earlier ones, and a record that fails
strict decoding still contributes its schema-known assignments. When
every live-event record touching the field decodes successfully, this
is the value of the last successfully-decoded record touching it; the
Achievements scenario with flag value 2 and one live event value 3
yields 3. -/
theorem C1_flag_before_events_last_write_wins
    (sys : System) (fn : String) (hfn : flagNameOf sys.type = some fn)
    (nk : Satori) (userID : String) (ctx : Nat) (st : CacheMap)
    (fp : Payload) (es : List LiveEvent) (entry : SatoriPersonalizerCache)
    (hl : lookupCache st ctx = some entry)
    (hflags : entry.flags.flags = [⟨fn, fp⟩])
    (hles : entry.liveEvents = some ⟨es⟩)
    (hfp : payloadFits sys.getConfig.schema fp = true)
    (k : String) (hk : k ∈ sys.getConfig.schema) :
    (GetValue pCache nk ctx sys userID st).err = none
    ∧ ((GetValue pCache nk ctx sys userID st).config.bind (fun c => getField c k))
        = mergeAt (mergeAt (getField sys.getConfig k) (lastAssign k fp))
            (lastEventValue k es) := by
  rw [GetValue_cached nk ctx sys userID st fn hfn]
  unfold cachedPath
  rw [hl]
  have hguard : (needsLiveEvents sys.type && entry.liveEvents.isNone) = false := by
    rw [hles]; simp
  simp only [hguard, Bool.false_eq_true, if_false]
  unfold mergePhase
  rw [hflags]
  have hloop : applyFlagsLoop sys.getConfig fn [⟨fn, fp⟩] none false
      = .ok (some (decodeStrict sys.getConfig fp).1, true) := by
    simp [applyFlagsLoop, decodeStrict_ok, hfp]
  rw [hloop]
  simp only [hles]
  unfold liveMergeStep
  cases es with
  | nil =>
    simp only [List.length_nil, gt_iff_lt, Nat.lt_irrefl, if_false]
    refine ⟨by simp, ?_⟩
    simp only [finishMerge_config_found, Option.some_bind]
    rw [getField_decodeStrict fp sys.getConfig k hk]
    rfl
  | cons e rest =>
    simp only [List.length_cons, gt_iff_lt, Nat.succ_pos, if_true]
    have hfnd : (applyLiveEvents (decodeStrict sys.getConfig fp).1 true (e :: rest)).2
        = true := by
      rw [applyLiveEvents_found]
      simp
    refine ⟨by simp, ?_⟩
    simp only [Option.getD_some]
    simp only [hfnd, finishMerge_config_found, Option.some_bind]
    have hk2 : k ∈ (decodeStrict sys.getConfig fp).1.schema := by
      rw [decodeStrict_schema]; exact hk
    rw [getField_applyLiveEvents (e :: rest) (decodeStrict sys.getConfig fp).1 true k hk2]
    rw [getField_decodeStrict fp sys.getConfig k hk]

/-- Witness for C1 as amended: the Achievements scenario of the spec:
flag rewardMultiplier 2, one live event rewardMultiplier 3, final
config rewardMultiplier 3. -/
theorem C1_flag_before_events_last_write_wins_witness :
    ((GetValue pCache nkEmpty 2 ⟨.achievements, cfgTwo⟩ "u"
        [(2, ⟨⟨[⟨"Hiro-Achievements", [("rewardMultiplier", 2)]⟩]⟩,
              some ⟨[⟨[("rewardMultiplier", 3)]⟩]⟩⟩)]).config.bind
      (fun c => getField c "rewardMultiplier")) = some 3 :=
  ((C1_flag_before_events_last_write_wins ⟨.achievements, cfgTwo⟩ "Hiro-Achievements" rfl
      nkEmpty "u" 2
      [(2, ⟨⟨[⟨"Hiro-Achievements", [("rewardMultiplier", 2)]⟩]⟩,
            some ⟨[⟨[("rewardMultiplier", 3)]⟩]⟩⟩)]
      [("rewardMultiplier", 2)] [⟨[("rewardMultiplier", 3)]⟩]
      ⟨⟨[⟨"Hiro-Achievements", [("rewardMultiplier", 2)]⟩]⟩,
        some ⟨[⟨[("rewardMultiplier", 3)]⟩]⟩⟩
      rfl rfl rfl (by decide) "rewardMultiplier" (by decide)).2).trans (by decide)

theorem cachedPath_flagFetches_hit (nk : Satori) (ctx : Nat) (sys : System)
    (userID : String) (fn : String) (st : CacheMap) (entry : SatoriPersonalizerCache)
    (hl : lookupCache st ctx = some entry) :
    (cachedPath nk ctx sys userID fn st).flagFetches = [] := by
  unfold cachedPath
  simp only [hl]
  repeat' split
  all_goals simp [mergePhase_flagFetches]

theorem cachedPath_flagFetches_miss (nk : Satori) (ctx : Nat) (sys : System)
    (userID : String) (fn : String) (st : CacheMap)
    (hl : lookupCache st ctx = none) :
    (cachedPath nk ctx sys userID fn st).flagFetches = [allFlagNames] := by
  unfold cachedPath
  simp only [hl]
  repeat' split
  all_goals simp [mergePhase_flagFetches]

/-- A remote source that always fails with a non-404 transport error. -/
def nkDown : Satori :=
  ⟨fun _ _ => .error ⟨false, 5⟩, fun _ => .error ⟨false, 5⟩⟩

/-- Counterexample to C5: with caching enabled and the scope active, the
first call fails its remote flag fetch, so no cache entry is stored and
the second consecutive call fetches again — two remote flag fetches
across two consecutive calls, not at most one. -/
theorem C5_counterexample :
    (GetValue pCache nkDown 0 ⟨.base, cfgTwo⟩ "u" []).flagFetches.length = 1
    ∧ (GetValue pCache nkDown 0 ⟨.base, cfgTwo⟩ "u"
        (GetValue pCache nkDown 0 ⟨.base, cfgTwo⟩ "u" []).state).flagFetches.length = 1
    ∧ ¬((GetValue pCache nkDown 0 ⟨.base, cfgTwo⟩ "u" []).flagFetches.length
        + (GetValue pCache nkDown 0 ⟨.base, cfgTwo⟩ "u"
            (GetValue pCache nkDown 0 ⟨.base, cfgTwo⟩ "u" []).state).flagFetches.length
          ≤ 1) := by
  refine ⟨by decide, by decide, by decide⟩

/-- C5 as amended. With caching disabled, every call issues exactly one
flag fetch naming exactly the resolved flag, and never changes the
cache. With caching enabled, every call issues at most one flag fetch,
any flag fetch it issues is batched over all known flag names, a call
that finds a cache entry for the scope issues none, and hence two
consecutive calls issue at most one flag fetch provided the first call
left an entry in the cache — which its own remote failures can
prevent. -/
theorem C5_fetch_discipline
    (nk : Satori) (ctx : Nat) (sys : System) (fn : String) (userID : String) (st : CacheMap)
    (hfn : flagNameOf sys.type = some fn) :
    ((GetValue pNoCache nk ctx sys userID st).flagFetches = [[fn]]
      ∧ (GetValue pNoCache nk ctx sys userID st).state = st)
    ∧ ((GetValue pCache nk ctx sys userID st).flagFetches.length ≤ 1
      ∧ ∀ ns, ns ∈ (GetValue pCache nk ctx sys userID st).flagFetches →
          ns = allFlagNames)
    ∧ (∀ entry, lookupCache st ctx = some entry →
        (GetValue pCache nk ctx sys userID st).flagFetches = [])
    ∧ ((lookupCache (GetValue pCache nk ctx sys userID st).state ctx).isSome = true →
        (GetValue pCache nk ctx sys userID
            ((GetValue pCache nk ctx sys userID st).state)).flagFetches = []
        ∧ (GetValue pCache nk ctx sys userID st).flagFetches.length
          + (GetValue pCache nk ctx sys userID
              ((GetValue pCache nk ctx sys userID st).state)).flagFetches.length ≤ 1) := by
  have hcount : ∀ st2 : CacheMap,
      (GetValue pCache nk ctx sys userID st2).flagFetches.length ≤ 1
      ∧ ∀ ns, ns ∈ (GetValue pCache nk ctx sys userID st2).flagFetches →
          ns = allFlagNames := by
    intro st2
    rw [GetValue_cached nk ctx sys userID st2 fn hfn]
    cases hl : lookupCache st2 ctx with
    | some entry =>
      rw [cachedPath_flagFetches_hit nk ctx sys userID fn st2 entry hl]
      exact ⟨by simp, by simp⟩
    | none =>
      rw [cachedPath_flagFetches_miss nk ctx sys userID fn st2 hl]
      refine ⟨by simp, ?_⟩
      intro ns hns
      rw [List.mem_singleton] at hns
      exact hns
  have hhit : ∀ (st2 : CacheMap) entry, lookupCache st2 ctx = some entry →
      (GetValue pCache nk ctx sys userID st2).flagFetches = [] := by
    intro st2 entry hl
    rw [GetValue_cached nk ctx sys userID st2 fn hfn]
    exact cachedPath_flagFetches_hit nk ctx sys userID fn st2 entry hl
  refine ⟨?_, hcount st, ?_, ?_⟩
  · rw [GetValue_noCache nk ctx sys userID st fn hfn]
    exact ⟨noCachePath_flagFetches nk sys userID fn st,
           noCachePath_state nk sys userID fn st⟩
  · intro entry hl
    exact hhit st entry hl
  · intro hsome
    obtain ⟨entry2, hent2⟩ := Option.isSome_iff_exists.mp hsome
    have hsecond := hhit _ entry2 hent2
    refine ⟨hsecond, ?_⟩
    rw [hsecond]
    simpa using (hcount st).1

/-- Witness for C5 as amended: caching off issues one fetch of exactly
Hiro-Base; caching on with a present entry issues none. -/
theorem C5_fetch_discipline_witness :
    (GetValue pNoCache nkEmpty 0 ⟨.base, cfgTwo⟩ "u" []).flagFetches = [["Hiro-Base"]]
    ∧ (GetValue pCache nkEmpty 9 ⟨.base, cfgTwo⟩ "u"
        [(9, ⟨⟨[]⟩, none⟩)]).flagFetches = [] :=
  ⟨(C5_fetch_discipline nkEmpty 0 ⟨.base, cfgTwo⟩ "Hiro-Base" "u" [] rfl).1.1,
   (C5_fetch_discipline nkEmpty 9 ⟨.base, cfgTwo⟩ "Hiro-Base" "u"
      [(9, ⟨⟨[]⟩, none⟩)] rfl).2.2.1 ⟨⟨[]⟩, none⟩ rfl⟩

theorem noCachePath_liveEventFetches_not_needed (nk : Satori) (sys : System)
    (userID : String) (fn : String) (st : CacheMap)
    (hn : needsLiveEvents sys.type = false) :
    (noCachePath nk sys userID fn st).liveEventFetches = 0 := by
  unfold noCachePath
  repeat' split
  all_goals simp_all

theorem cachedPath_liveEventFetches_not_needed (nk : Satori) (ctx : Nat) (sys : System)
    (userID : String) (fn : String) (st : CacheMap)
    (hn : needsLiveEvents sys.type = false) :
    (cachedPath nk ctx sys userID fn st).liveEventFetches = 0 := by
  unfold cachedPath
  repeat' split
  all_goals simp_all [mergePhase_liveEventFetches]

/-- The cached path never removes a cache entry, never changes the flags
of an existing entry, and never unsets or overwrites a live-event slot
that is already set. -/
theorem cachedPath_preserves_entries (nk : Satori) (ctx : Nat) (sys : System)
    (userID : String) (fn : String) (st : CacheMap) (ctx2 : Nat)
    (entry : SatoriPersonalizerCache) (h2 : lookupCache st ctx2 = some entry) :
    ∃ entry2, lookupCache (cachedPath nk ctx sys userID fn st).state ctx2 = some entry2
      ∧ entry2.flags = entry.flags
      ∧ (∀ lel, entry.liveEvents = some lel → entry2.liveEvents = some lel) := by
  unfold cachedPath
  cases hhit : lookupCache st ctx with
  | some entryC =>
    simp only [hhit]
    cases hguard : (needsLiveEvents sys.type && entryC.liveEvents.isNone) with
    | false =>
      simp only [Bool.false_eq_true, if_false, mergePhase_state]
      exact ⟨entry, h2, rfl, fun _ h => h⟩
    | true =>
      simp only [if_true]
      cases hle : nk.liveEventsList userID with
      | error e =>
        cases h4 : e.is404 <;>
          simp only [h4, Bool.false_eq_true, if_false, if_true] <;>
          exact ⟨entry, h2, rfl, fun _ h => h⟩
      | ok lel =>
        simp only [mergePhase_state]
        by_cases hc : ctx2 = ctx
        · subst hc
          have hent : entryC = entry := by
            have := hhit.symm.trans h2
            exact Option.some.inj this
          subst hent
          have hnone : entryC.liveEvents = none := by
            have := (Bool.and_eq_true _ _).mp hguard
            exact Option.isNone_iff_eq_none.mp this.2
          refine ⟨⟨entryC.flags, some lel⟩,
            lookupCache_insert_self st ctx2 ⟨entryC.flags, some lel⟩, rfl, ?_⟩
          intro lel0 h0
          rw [hnone] at h0
          exact Option.noConfusion h0
        · rw [lookupCache_insert_other st ctx ctx2 _ hc]
          exact ⟨entry, h2, rfl, fun _ h => h⟩
  | none =>
    simp only [hhit]
    have hc : ctx2 ≠ ctx := by
      intro hh
      rw [hh, hhit] at h2
      exact Option.noConfusion h2
    cases hfl : nk.flagsList userID allFlagNames with
    | error e =>
      cases h4 : e.is404 <;>
        simp only [h4, Bool.false_eq_true, if_false, if_true] <;>
        exact ⟨entry, h2, rfl, fun _ h => h⟩
    | ok flagList =>
      cases hn : needsLiveEvents sys.type with
      | false =>
        simp only [Bool.false_eq_true, if_false, mergePhase_state]
        rw [lookupCache_insert_other st ctx ctx2 _ hc]
        exact ⟨entry, h2, rfl, fun _ h => h⟩
      | true =>
        simp only [if_true]
        cases hle : nk.liveEventsList userID with
        | error e =>
          cases h4 : e.is404 <;>
            simp only [h4, Bool.false_eq_true, if_false, if_true] <;>
            exact ⟨entry, h2, rfl, fun _ h => h⟩
        | ok lel =>
          simp only [mergePhase_state]
          rw [lookupCache_insert_other st ctx ctx2 _ hc]
          exact ⟨entry, h2, rfl, fun _ h => h⟩

/-- Counterexample to C7: an Achievements call — a type for which live
events are needed — served from a cache entry whose live-event slot is
already set performs zero LiveEventsList fetches, so live events are not
fetched in GetValue every time the system type is EventLeaderboards or
Achievements. -/
theorem C7_counterexample :
    needsLiveEvents SystemType.achievements = true
    ∧ (GetValue pCache nkEmpty 3 ⟨.achievements, cfgTwo⟩ "u"
        [(3, ⟨⟨[]⟩, some ⟨[]⟩⟩)]).err = none
    ∧ (GetValue pCache nkEmpty 3 ⟨.achievements, cfgTwo⟩ "u"
        [(3, ⟨⟨[]⟩, some ⟨[]⟩⟩)]).liveEventFetches = 0 := by
  refine ⟨by decide, by decide, by decide⟩

/-- C7 as amended. Live events are fetched only when the system type is
EventLeaderboards or Achievements — never for other types — and, in the
cached path, not even then once the live-event slot of the scope's entry
is set; moreover a GetValue call never changes the flags of any existing
cache entry and never unsets or overwrites a live-event slot that is
already set, so the slot transitions at most once from unset to set. -/
theorem C7_live_fetch_only_when_needed_write_once
    (p : SatoriPersonalizer) (nk : Satori) (ctx : Nat) (sys : System)
    (userID : String) (st : CacheMap) :
    (needsLiveEvents sys.type = false →
      (GetValue p nk ctx sys userID st).liveEventFetches = 0)
    ∧ (∀ entry lel, p.noCache = false → lookupCache st ctx = some entry →
        entry.liveEvents = some lel →
        (GetValue p nk ctx sys userID st).liveEventFetches = 0)
    ∧ (∀ ctx2 entry, lookupCache st ctx2 = some entry →
        ∃ entry2,
          lookupCache (GetValue p nk ctx sys userID st).state ctx2 = some entry2
          ∧ entry2.flags = entry.flags
          ∧ (∀ lel, entry.liveEvents = some lel → entry2.liveEvents = some lel)) := by
  refine ⟨?_, ?_, ?_⟩
  · intro hn
    unfold GetValue
    cases flagNameOf sys.type with
    | none => rfl
    | some fn =>
      cases hp : p.noCache
      · simp only [Bool.false_eq_true, if_false]
        exact cachedPath_liveEventFetches_not_needed nk ctx sys userID fn st hn
      · simp only [if_true]
        exact noCachePath_liveEventFetches_not_needed nk sys userID fn st hn
  · intro entry lel hp hl hle
    unfold GetValue
    cases flagNameOf sys.type with
    | none => rfl
    | some fn =>
      simp only [hp, Bool.false_eq_true, if_false]
      unfold cachedPath
      simp only [hl, hle, Option.isNone_some, Bool.and_false, Bool.false_eq_true,
        if_false]
      exact mergePhase_liveEventFetches sys fn entry st [] 0
  · intro ctx2 entry h2
    unfold GetValue
    cases flagNameOf sys.type with
    | none => exact ⟨entry, h2, rfl, fun _ h => h⟩
    | some fn =>
      cases hp : p.noCache
      · simp only [Bool.false_eq_true, if_false]
        exact cachedPath_preserves_entries nk ctx sys userID fn st ctx2 entry h2
      · simp only [if_true]
        rw [noCachePath_state nk sys userID fn st]
        exact ⟨entry, h2, rfl, fun _ h => h⟩

/-- Witness for C7 as amended: a Base call fetches no live events, and
an Achievements call with the slot already set fetches none either. -/
theorem C7_live_fetch_only_when_needed_write_once_witness :
    (GetValue pCache nkEmpty 3 ⟨.base, cfgTwo⟩ "u"
        [(3, ⟨⟨[]⟩, none⟩)]).liveEventFetches = 0
    ∧ (GetValue pCache nkEmpty 4 ⟨.achievements, cfgTwo⟩ "u"
        [(4, ⟨⟨[]⟩, some ⟨[]⟩⟩)]).liveEventFetches = 0 :=
  ⟨(C7_live_fetch_only_when_needed_write_once pCache nkEmpty 3 ⟨.base, cfgTwo⟩ "u"
      [(3, ⟨⟨[]⟩, none⟩)]).1 rfl,
   (C7_live_fetch_only_when_needed_write_once pCache nkEmpty 4 ⟨.achievements, cfgTwo⟩ "u"
      [(4, ⟨⟨[]⟩, some ⟨[]⟩⟩)]).2.1 ⟨⟨[]⟩, some ⟨[]⟩⟩ ⟨[]⟩ rfl rfl rfl⟩

end Hiro
